import Mathlib

/-!
Verification development for the timed sampling scheduler with SLA enforcement.

Shallow embedding of:
  * `src/src/utils/config.py`   — `resolve_sampling_config`
  * `src/src/testing/data_collector.py` — `SamplingConfig`, `DataCollector.collect_measurements`,
    `DataCollector._sampling_worker`, `DataCollector._get_measurement`

Real numbers of the program (Python floats) are modelled as exact rationals `ℚ`;
machine time readings, queue timing and the network are modelled by explicit
environment oracles, so the concurrent run becomes a deterministic function of
the environment.
-/

deriving instance DecidableEq for Except

namespace TestQA

/-- A Python numeric value as it arrives from the YAML config: either an `int`
or a `float`.  `isinstance(x, int)` is modelled by the `int` constructor. -/
inductive PyNum where
  | int (n : ℤ)
  | float (q : ℚ)
deriving DecidableEq, Repr

/-- Numeric value of a `PyNum` (Python's implicit widening to float). -/
def PyNum.toRat : PyNum → ℚ
  | .int n => (n : ℚ)
  | .float q => q

/-- `tolerance = 1e-3` from `resolve_sampling_config` (src/src/utils/config.py line 67). -/
def tolerance : ℚ := 1 / 1000

/-- Python's built-in `abs` on a number (used as `abs(...)` in the source). -/
def pyAbs (q : ℚ) : ℚ := if q < 0 then -q else q

/-- Python 3 `round` on a non-negative-or-any rational: round half to even
(banker's rounding), as used in `int(round(expected_count))`
(src/src/utils/config.py line 73). -/
def pyRound (q : ℚ) : ℤ :=
  if q - ⌊q⌋ < 1/2 then ⌊q⌋
  else if 1/2 < q - ⌊q⌋ then ⌊q⌋ + 1
  else if ⌊q⌋ % 2 = 0 then ⌊q⌋ else ⌊q⌋ + 1

/-- The distinct `ValueError` raise sites of `resolve_sampling_config`
(src/src/utils/config.py).  The spec calls all of them `ConfigurationError`. -/
inductive ConfigError where
  | underspecified      -- "must provide at least 2 of ..."
  | invalidCount        -- "measurements_count must be a positive integer"
  | invalidFrequency    -- "sampling_frequency_hz must be a positive number"
  | invalidDuration     -- "total_duration_seconds must be a positive number"
  | nonIntegralCount    -- "Duration * Frequency must result in an integer measurements_count"
  | conflict            -- "Sampling config conflict: ..."
deriving DecidableEq, Repr

/-- The three fully-resolved sampling values written back into the config
mapping at the end of `resolve_sampling_config`
(src/src/utils/config.py lines 95–97). -/
structure ResolvedSampling where
  measurements_count : ℤ
  sampling_frequency_hz : ℚ
  total_duration_seconds : ℚ
deriving DecidableEq, Repr

/-- Number of non-null parameters (`provided_fields_count`,
src/src/utils/config.py lines 38–45). -/
def providedCount (mc fz dz : Option PyNum) : ℕ :=
  (if mc.isSome then 1 else 0) + (if fz.isSome then 1 else 0) + (if dz.isSome then 1 else 0)

/-- The `measurements_count` validity check (src/src/utils/config.py lines 52–54):
an absent value passes; a present value must be a Python `int` that is strictly
positive (`not isinstance(measurements_count, int) or measurements_count <= 0`
raises). -/
def count_ok : Option PyNum → Bool
  | none => true
  | some (.int n) => decide (0 < n)
  | some (.float _) => false

/-- The positivity check shared by `sampling_frequency_hz` and
`total_duration_seconds` (src/src/utils/config.py lines 56–64): an absent value
passes; a present value (`int` or `float`) must be strictly positive. -/
def pos_ok : Option PyNum → Bool
  | none => true
  | some p => decide (0 < p.toRat)

/-- `resolve_sampling_config` (src/src/utils/config.py lines 29–99) on the three
optional sampling parameters.  Checks, in source order: at least two provided;
each provided parameter valid; then either derives the missing third parameter
(when exactly two are provided) or checks consistency (when all three are), and
returns the written-back triple.  The `_ , _ , _` fallback arms are unreachable:
every shape they cover was already rejected by the earlier checks. -/
def resolve_sampling_config (mc fz dz : Option PyNum) : Except ConfigError ResolvedSampling :=
  if providedCount mc fz dz < 2 then .error .underspecified
  else if ¬ count_ok mc then .error .invalidCount
  else if ¬ pos_ok fz then .error .invalidFrequency
  else if ¬ pos_ok dz then .error .invalidDuration
  else match mc, fz, dz with
    | none, some f, some d =>
      -- missing count: expected_count = total_duration_seconds * sampling_frequency_hz
      let expected := d.toRat * f.toRat
      let rounded := pyRound expected
      if tolerance < pyAbs (expected - (rounded : ℚ)) then .error .nonIntegralCount
      else .ok ⟨rounded, f.toRat, d.toRat⟩
    | some (.int n), none, some d =>
      -- missing frequency: measurements_count / total_duration_seconds
      .ok ⟨n, (n : ℚ) / d.toRat, d.toRat⟩
    | some (.int n), some f, none =>
      -- missing duration: measurements_count / sampling_frequency_hz
      .ok ⟨n, f.toRat, (n : ℚ) / f.toRat⟩
    | some (.int n), some f, some d =>
      -- all three provided: consistency check
      let expected := d.toRat * f.toRat
      if tolerance < pyAbs (expected - (n : ℚ)) then .error .conflict
      else .ok ⟨n, f.toRat, d.toRat⟩
    | _, _, _ => .error .invalidCount

/-- `true` iff `resolve_sampling_config` raises (any `ValueError`). -/
def resolve_errors (mc fz dz : Option PyNum) : Bool :=
  match resolve_sampling_config mc fz dz with
  | .error _ => true
  | .ok _ => false

/-- The `ValueError` raise sites of `SamplingConfig._validate_parameters`
(src/src/testing/data_collector.py lines 48–66). -/
inductive SamplingError where
  | nonPositiveCount
  | nonPositiveDuration
  | nonPositiveFrequency
  | infeasible          -- "Impossible configuration: need minimum ..."
deriving DecidableEq, Repr

/-- The validated sampling configuration (`SamplingConfig`,
src/src/testing/data_collector.py lines 13–66).  `interval` and
`minimum_time_required` are derived fields, modelled as functions below. -/
structure SamplingConfig where
  measurements_count : ℤ
  total_duration_seconds : ℚ
  sampling_frequency_hz : ℚ
deriving DecidableEq, Repr

/-- `self.interval = 1.0 / sampling_frequency_hz` (data_collector.py line 43). -/
def SamplingConfig.interval (sc : SamplingConfig) : ℚ :=
  1 / sc.sampling_frequency_hz

/-- `self.minimum_time_required = (measurements_count - 1) * self.interval`
(data_collector.py line 46). -/
def SamplingConfig.minimum_time_required (sc : SamplingConfig) : ℚ :=
  ((sc.measurements_count : ℚ) - 1) * sc.interval

/-- `SamplingConfig._validate_parameters` (data_collector.py lines 48–66):
positivity of the three parameters, then feasibility
`minimum_time > total_duration_seconds → error`. -/
def validate_parameters (c : ℤ) (d f : ℚ) : Except SamplingError Unit :=
  if c ≤ 0 then .error .nonPositiveCount
  else if d ≤ 0 then .error .nonPositiveDuration
  else if f ≤ 0 then .error .nonPositiveFrequency
  else if d < ((c : ℚ) - 1) * (1 / f) then .error .infeasible
  else .ok ()

/-- `SamplingConfig.__init__` (data_collector.py lines 23–46): validate, then
store the three parameters. -/
def mkSamplingConfig (c : ℤ) (d f : ℚ) : Except SamplingError SamplingConfig :=
  match validate_parameters c d f with
  | .error e => .error e
  | .ok _ => .ok ⟨c, d, f⟩

/-! ## The sampling scheduler (`DataCollector`, src/src/testing/data_collector.py)

The collector runs one producer thread (`_sampling_worker`) and one consumer
loop (`collect_measurements`) that hand samples over a FIFO queue.  All clock
readings, network responses and cross-thread timing are resolved by an explicit
environment oracle `Env`, so one run of `collect_measurements` is a function of
the environment.  The queue hand-off is intrinsic: the consumer can only ever
receive items the worker produced, in FIFO order. -/

/-- One device entry of the `ammeters` section of the configuration:
`{port: integer, command: string}`. -/
structure AmmeterConf where
  port : Option ℕ
  command : String
deriving DecidableEq, Repr

/-- The default `{}` used by `config["ammeters"].get(ammeter_type, {})`
(data_collector.py line 235): no `port`, empty `command`. -/
def default_ammeter_conf : AmmeterConf := ⟨none, ""⟩

/-- The part of the configuration dictionary `collect_measurements` reads:
the `ammeters` mapping (device identifier to connection settings). -/
structure Config where
  ammeters : List (String × AmmeterConf)
deriving DecidableEq, Repr

/-- `self.config["ammeters"].get(ammeter_type, {})` (data_collector.py line 235). -/
def getAmmeterConf (c : Config) (t : String) : AmmeterConf :=
  (c.ammeters.lookup t).getD default_ammeter_conf

/-- `DataCollector._get_measurement` (data_collector.py lines 281–305): if the
device has no `port`, return null without contacting the network; otherwise the
result is whatever `request_current_from_ammeter` returned (`net`), which is
itself null on connection failure, timeout, or unparsable response
(src/Ammeters/client.py). -/
def get_measurement (conf : AmmeterConf) (net : Option ℚ) : Option ℚ :=
  match conf.port with
  | none => none
  | some _ => net

/-- A queue item put by the worker (data_collector.py lines 264–269). -/
structure QItem where
  timestamp : ℚ
  relative_time : ℚ
  value : Option ℚ
  index : ℕ
deriving DecidableEq, Repr

/-- A measurement record appended by the consumer
(data_collector.py lines 182–189). -/
structure Sample where
  timestamp : ℚ
  relative_time : ℚ
  value : Option ℚ
  measurement_index : ℕ
  test_id : String
  ammeter_type : String
deriving DecidableEq, Repr

/-- Environment oracle: clock readings, network responses and cross-thread
timing of one `collect_measurements` run.  Indexing is by loop iteration. -/
structure Env where
  /-- network response to the worker's `i`-th `request_current_from_ammeter` call -/
  acq : ℕ → Option ℚ
  /-- worker's view of `_stop_event.is_set()` at the top of iteration `i` -/
  stopObs : ℕ → Bool
  /-- worker's elapsed-time reading at iteration `i` (perf_counter − absolute_start) -/
  pElapsed : ℕ → ℚ
  /-- worker's `time.time()` wall-clock reading at iteration `i` -/
  wallClock : ℕ → ℚ
  /-- worker's `relative_time` reading at iteration `i` -/
  relTime : ℕ → ℚ
  /-- consumer's elapsed-time reading at the top of iteration `i` -/
  cElapsed : ℕ → ℚ
  /-- whether the consumer's `queue.get` at iteration `i` returns in time
      (`false` models `queue.Empty` after the computed timeout) -/
  recvOk : ℕ → Bool
  /-- consumer's elapsed-time re-check inside the `queue.Empty` handler -/
  tElapsed : ℕ → ℚ
  /-- `elapsed_time` reading after the consumer loop (data_collector.py line 199) -/
  finalElapsed : ℚ

/-- `DataCollector._sampling_worker` (data_collector.py lines 222–279), as a
function of the environment: returns the list of queue items produced and
whether the worker set `_sla_exceeded`.  Per iteration, in source order: stop
if `_stop_event` is observed set; stop (setting the SLA flag) if
`elapsed > sla_timeout`; otherwise acquire one value (null allowed) and enqueue
it stamped with wall-clock time, relative time and index.  The
drift-compensated interruptible sleep only shapes real time, which the oracles
already resolve, so it contributes no state here. -/
def sampling_worker (conf : AmmeterConf) (env : Env) (sla : ℚ) :
    ℕ → ℕ → List QItem × Bool
  | 0, _ => ([], false)
  | n + 1, i =>
    if env.stopObs i then ([], false)
    else if sla < env.pElapsed i then ([], true)
    else
      let item : QItem :=
        ⟨env.wallClock i, env.relTime i, get_measurement conf (env.acq i), i⟩
      let rest := sampling_worker conf env sla n (i + 1)
      (item :: rest.1, rest.2)

/-- Consumer-side mutable state: the `measurements` list and the two shared
events `_stop_event` and `_sla_exceeded` (consumer's writes). -/
structure CState where
  measurements : List Sample
  stop_event : Bool
  sla_exceeded : Bool
deriving DecidableEq, Repr

/-- The consumer loop of `collect_measurements`
(data_collector.py lines 166–196), as a function of the environment and of the
worker's item list.  Per iteration `i`: read the elapsed time; if
`remaining ≤ 0`, set both events and break; otherwise wait on the queue (the
timeout `min(2*interval + 1, remaining)` only shapes real time — whether the
wait returns an item is the `recvOk` oracle, and an item can only be received
if the worker actually produced one beyond those already consumed); on receive,
append the sample stamped with the consumer's index `i`; on `queue.Empty`,
re-read the elapsed time, set both events if it reached the SLA, and break. -/
def consumer_loop (env : Env) (items : List QItem) (sla : ℚ) (tid aty : String) :
    ℕ → ℕ → CState → CState
  | 0, _, st => st
  | n + 1, i, st =>
    if sla - env.cElapsed i ≤ 0 then
      { st with stop_event := true, sla_exceeded := true }
    else
      match (if env.recvOk i then items[st.measurements.length]? else none) with
      | some it =>
        consumer_loop env items sla tid aty n (i + 1)
          { st with measurements := st.measurements ++
              [⟨it.timestamp, it.relative_time, it.value, i, tid, aty⟩] }
      | none =>
        if sla ≤ env.tElapsed i then
          { st with stop_event := true, sla_exceeded := true }
        else st

/-- Terminal classification of a run: the branch of the `if/elif/else` that
chooses `reason` (data_collector.py lines 207–212). -/
inductive Outcome where
  | Success
  | SlaExceeded
  | Incomplete
deriving DecidableEq, Repr

/-- `CollectionResult` (data_collector.py lines 79–98); `outcome` captures
which reason branch was taken. -/
structure CollectionResult where
  measurements : List Sample
  success : Bool
  elapsed_time : ℚ
  expected_count : ℕ
  actual_count : ℕ
  outcome : Outcome
deriving DecidableEq, Repr

/-- Everything observable at the end of `collect_measurements`: the returned
result, the consumer's final state, and the final value of the shared
`_sla_exceeded` event (consumer's writes or the worker's). -/
structure RunOutput where
  finalState : CState
  slaEventFinal : Bool
  result : CollectionResult
deriving DecidableEq, Repr

/-- `DataCollector.collect_measurements` (data_collector.py lines 129–220) as a
function of the environment: clear the events and the queue, run the worker and
the consumer loop, read the final elapsed time, join the worker (the 2-second
join only shapes real time), and classify:
`success = len(measurements) >= total and elapsed_time <= sla`; reason branch
`Success` / `SlaExceeded` (if `_sla_exceeded` is set) / `Incomplete`. -/
def collect_measurements (cfg : Config) (sc : SamplingConfig) (env : Env)
    (ammeter_type test_id : String) : RunOutput :=
  let total := sc.measurements_count.toNat
  let sla := sc.total_duration_seconds
  let conf := getAmmeterConf cfg ammeter_type
  let w := sampling_worker conf env sla total 0
  let st := consumer_loop env w.1 sla test_id ammeter_type total 0 ⟨[], false, false⟩
  let elapsed := env.finalElapsed
  let slaFlag := st.sla_exceeded || w.2
  let success := decide (total ≤ st.measurements.length) && decide (elapsed ≤ sla)
  let outcome :=
    if success then Outcome.Success
    else if slaFlag then Outcome.SlaExceeded
    else Outcome.Incomplete
  ⟨st, slaFlag, ⟨st.measurements, success, elapsed, total, st.measurements.length, outcome⟩⟩

/-! ## Spec-side predicate for comparison (claim C4)

The claim asserts the resolver errors *exactly when* one of three conditions
holds.  To compare it against the source, the claimed condition is stated as
its own definition, translated from the claim's words. -/

/-- The error condition claimed (claim C4 / spec §4.1, stated from the claim's
words, not from the source): fewer than two present; or a present parameter not
strictly positive (or `measurementsCount` not an integer); or all three present
and `duration × frequency` differs from `count` by more than the tolerance. -/
def spec_error_condition (mc fz dz : Option PyNum) : Bool :=
  decide (providedCount mc fz dz < 2) ||
  (match mc with
   | some (.int n) => decide (n ≤ 0)
   | some (.float _) => true
   | none => false) ||
  (match fz with | some p => decide (p.toRat ≤ 0) | none => false) ||
  (match dz with | some p => decide (p.toRat ≤ 0) | none => false) ||
  (match mc, fz, dz with
   | some c, some f, some d => decide (tolerance < pyAbs (d.toRat * f.toRat - c.toRat))
   | _, _, _ => false)

/-- The additional error condition present in the source but absent from the
claim (src/src/utils/config.py lines 71–76): count missing and
`duration × frequency` farther than the tolerance from the nearest integer. -/
def missing_count_nonintegral (mc fz dz : Option PyNum) : Bool :=
  match mc, fz, dz with
  | none, some f, some d =>
    decide (tolerance < pyAbs (d.toRat * f.toRat - (pyRound (d.toRat * f.toRat) : ℚ)))
  | _, _, _ => false

/-! ## Concrete instances for witnesses and counterexamples -/

/-- A benign environment: the network always answers null, the worker never
observes a stop, every clock reading is 0, and every queue receive succeeds. -/
def benignNullEnv : Env :=
  ⟨fun _ => none, fun _ => false, fun _ => 0, fun _ => 0, fun _ => 0,
   fun _ => 0, fun _ => true, fun _ => 0, 0⟩

/-- The benign environment with a network that always answers 7. -/
def benignValEnv : Env := { benignNullEnv with acq := fun _ => some 7 }

/-- A configuration knowing a single device, `greenlee`, on port 8000. -/
def demoConfig : Config := ⟨[("greenlee", ⟨some 8000, "I:?"⟩)]⟩

/-- A validated plan: 1 measurement, 10-second SLA, 1 Hz. -/
def scOne : SamplingConfig := ⟨1, 10, 1⟩

/-- A validated plan: 2 measurements, 10-second SLA, 1 Hz. -/
def scTwo : SamplingConfig := ⟨2, 10, 1⟩

/-! ## Helper lemmas about the resolver -/

theorem pyAbs_eq_abs (q : ℚ) : pyAbs q = |q| := by
  unfold pyAbs
  split_ifs with h
  · exact (abs_of_neg h).symm
  · exact (abs_of_nonneg (not_lt.mp h)).symm

theorem pyRound_nonneg {q : ℚ} (h : 0 < q) : 0 ≤ pyRound q := by
  have h0 : (0 : ℤ) ≤ ⌊q⌋ := Int.le_floor.mpr (by exact_mod_cast h.le)
  unfold pyRound
  split_ifs <;> omega

/-- Invariants of every successful resolution: positive frequency, positive
duration, non-negative count, and consistency within the tolerance. -/
theorem resolve_ok_inv {mc fz dz : Option PyNum} {r : ResolvedSampling}
    (h : resolve_sampling_config mc fz dz = .ok r) :
    0 < r.sampling_frequency_hz ∧ 0 < r.total_duration_seconds ∧
    0 ≤ r.measurements_count ∧
    |r.total_duration_seconds * r.sampling_frequency_hz - (r.measurements_count : ℚ)| ≤
      tolerance := by
  rcases mc with _ | (n | q) <;> rcases fz with _ | f <;> rcases dz with _ | d <;>
    simp [resolve_sampling_config, providedCount, count_ok, pos_ok] at h
  · -- missing count: r = ⟨pyRound (d*f), f, d⟩
    split_ifs at h with hf hd htol
    rw [Except.ok.injEq] at h
    subst h
    push_neg at hf hd htol
    rw [pyAbs_eq_abs] at htol
    exact ⟨hf, hd, pyRound_nonneg (mul_pos hd hf), htol⟩
  · -- missing frequency: r = ⟨n, n/d, d⟩
    split_ifs at h with hn hd
    rw [Except.ok.injEq] at h
    subst h
    push_neg at hn hd
    have hdne : d.toRat ≠ 0 := ne_of_gt hd
    have hz : d.toRat * ((n : ℚ) / d.toRat) - (n : ℚ) = 0 := by field_simp
    refine ⟨div_pos (by exact_mod_cast hn) hd, hd, le_of_lt hn, ?_⟩
    simp only [hz]
    norm_num [tolerance]
  · -- missing duration: r = ⟨n, f, n/f⟩
    split_ifs at h with hn hf
    rw [Except.ok.injEq] at h
    subst h
    push_neg at hn hf
    have hfne : f.toRat ≠ 0 := ne_of_gt hf
    have hz : (n : ℚ) / f.toRat * f.toRat - (n : ℚ) = 0 := by field_simp
    refine ⟨hf, div_pos (by exact_mod_cast hn) hf, le_of_lt hn, ?_⟩
    simp only [hz]
    norm_num [tolerance]
  · -- all three provided: r = ⟨n, f, d⟩
    split_ifs at h with hn hf hd htol
    rw [Except.ok.injEq] at h
    subst h
    push_neg at hn hf hd htol
    rw [pyAbs_eq_abs] at htol
    exact ⟨hf, hd, le_of_lt hn, htol⟩

/-- Arithmetic core of the feasibility argument: consistency within the
`tolerance` forces strict feasibility. -/
theorem feasible_of_consistent {c : ℤ} {f d : ℚ} (hf : 0 < f)
    (h : |d * f - (c : ℚ)| ≤ tolerance) : ((c : ℚ) - 1) * (1 / f) < d := by
  have h1 : (c : ℚ) - d * f ≤ tolerance := by
    have := (abs_le.mp h).1
    linarith
  have htol : tolerance < 1 := by norm_num [tolerance]
  rw [mul_one_div, div_lt_iff₀ hf]
  linarith

/-- Every plan the resolver returns is strictly feasible. -/
theorem resolve_ok_feasible {mc fz dz : Option PyNum} {r : ResolvedSampling}
    (h : resolve_sampling_config mc fz dz = .ok r) :
    ((r.measurements_count : ℚ) - 1) * (1 / r.sampling_frequency_hz) <
      r.total_duration_seconds := by
  obtain ⟨hf, _, _, hcons⟩ := resolve_ok_inv h
  exact feasible_of_consistent hf hcons

/-- Evaluation of the resolver when only count is missing and both given
parameters pass their checks. -/
theorem resolve_missing_count {f d : PyNum} (hf : 0 < f.toRat) (hd : 0 < d.toRat) :
    resolve_sampling_config none (some f) (some d) =
      if tolerance < pyAbs (d.toRat * f.toRat - (pyRound (d.toRat * f.toRat) : ℚ))
      then .error .nonIntegralCount
      else .ok ⟨pyRound (d.toRat * f.toRat), f.toRat, d.toRat⟩ := by
  simp [resolve_sampling_config, providedCount, count_ok, pos_ok, hf, hd]

/-- Evaluation of the resolver when only frequency is missing and both given
parameters pass their checks. -/
theorem resolve_missing_frequency {n : ℤ} {d : PyNum} (hn : 0 < n) (hd : 0 < d.toRat) :
    resolve_sampling_config (some (.int n)) none (some d) =
      .ok ⟨n, (n : ℚ) / d.toRat, d.toRat⟩ := by
  simp [resolve_sampling_config, providedCount, count_ok, pos_ok, hn, hd]

/-- Evaluation of the resolver when only duration is missing and both given
parameters pass their checks. -/
theorem resolve_missing_duration {n : ℤ} {f : PyNum} (hn : 0 < n) (hf : 0 < f.toRat) :
    resolve_sampling_config (some (.int n)) (some f) none =
      .ok ⟨n, f.toRat, (n : ℚ) / f.toRat⟩ := by
  simp [resolve_sampling_config, providedCount, count_ok, pos_ok, hn, hf]

/-- Evaluation of the resolver when all three parameters are given and pass
their checks. -/
theorem resolve_all_given {n : ℤ} {f d : PyNum} (hn : 0 < n) (hf : 0 < f.toRat)
    (hd : 0 < d.toRat) :
    resolve_sampling_config (some (.int n)) (some f) (some d) =
      if tolerance < pyAbs (d.toRat * f.toRat - (n : ℚ)) then .error .conflict
      else .ok ⟨n, f.toRat, d.toRat⟩ := by
  simp [resolve_sampling_config, providedCount, count_ok, pos_ok, hn, hf, hd]

theorem pyRound_2001_2000 : pyRound (2001/2000) = 1 := by
  have hfl : ⌊(2001/2000 : ℚ)⌋ = 1 := by
    rw [Int.floor_eq_iff]
    norm_num
  unfold pyRound
  rw [hfl]
  norm_num

theorem pyRound_5_2 : pyRound (5/2) = 2 := by
  have hfl : ⌊(5/2 : ℚ)⌋ = 2 := by
    rw [Int.floor_eq_iff]
    norm_num
  unfold pyRound
  rw [hfl]
  norm_num

theorem pyRound_10 : pyRound 10 = 10 := by
  have hfl : ⌊(10 : ℚ)⌋ = 10 := by
    rw [Int.floor_eq_iff]
    norm_num
  unfold pyRound
  rw [hfl]
  norm_num

theorem pyRound_1_2000 : pyRound (1/2000) = 0 := by
  have hfl : ⌊(1/2000 : ℚ)⌋ = 0 := by
    rw [Int.floor_eq_iff]
    norm_num
  unfold pyRound
  rw [hfl]
  norm_num

/-! ## Claims about the resolver -/

/-- C2 (counterexample): with frequency 0.1 Hz and duration 10.005 s the
resolver succeeds (derived count 1), yet
`|count × interval − duration| = 0.005`, which is not `< 1e-3`. -/
theorem C2_counterexample :
    resolve_sampling_config none (some (.float (1/10))) (some (.float (2001/200)))
      = .ok ⟨1, 1/10, 2001/200⟩ ∧
    ¬ |(1 : ℚ) * (1 / (1/10)) - 2001/200| < 1/1000 := by
  constructor
  · rw [@resolve_missing_count (.float (1/10)) (.float (2001/200))
      (by norm_num [PyNum.toRat]) (by norm_num [PyNum.toRat])]
    have harg : (PyNum.float (2001/200)).toRat * (PyNum.float (1/10)).toRat
        = 2001/2000 := by
      norm_num [PyNum.toRat]
    rw [harg, pyRound_2001_2000]
    norm_num [pyAbs, tolerance, PyNum.toRat]
  · intro hlt
    rw [show (1 : ℚ) * (1 / (1/10)) - 2001/200 = -(1/200) by norm_num] at hlt
    rw [abs_neg, abs_of_pos (by norm_num)] at hlt
    norm_num at hlt

/-- C2 (amended): for every input on which the resolver succeeds, the resolved
triple satisfies `|duration × frequency − count| ≤ 1e-3`, equivalently
`|count × interval − duration| ≤ 1e-3 × interval` where the interval is the
reciprocal of the resolved frequency — a tolerance on the count scale, not the
duration scale. -/
theorem C2_resolved_consistency {mc fz dz : Option PyNum} {r : ResolvedSampling}
    (h : resolve_sampling_config mc fz dz = .ok r) :
    |r.total_duration_seconds * r.sampling_frequency_hz - (r.measurements_count : ℚ)|
        ≤ tolerance ∧
    |(r.measurements_count : ℚ) * (1 / r.sampling_frequency_hz) - r.total_duration_seconds|
        ≤ tolerance * (1 / r.sampling_frequency_hz) := by
  obtain ⟨hf, hd, hc, hcons⟩ := resolve_ok_inv h
  refine ⟨hcons, ?_⟩
  have hfne : r.sampling_frequency_hz ≠ 0 := ne_of_gt hf
  have key : (r.measurements_count : ℚ) * (1 / r.sampling_frequency_hz) -
        r.total_duration_seconds =
      -(r.total_duration_seconds * r.sampling_frequency_hz - (r.measurements_count : ℚ)) *
        (1 / r.sampling_frequency_hz) := by
    field_simp
    ring
  rw [key, abs_mul, abs_neg, abs_of_pos (one_div_pos.mpr hf)]
  exact mul_le_mul_of_nonneg_right hcons (le_of_lt (one_div_pos.mpr hf))

/-- C2 (witness for the amended claim): a concrete successful resolution
satisfying the count-scale tolerance. -/
theorem C2_witness :
    |(5 : ℚ) * 2 - ((10 : ℤ) : ℚ)| ≤ tolerance ∧
    |((10 : ℤ) : ℚ) * (1 / (2 : ℚ)) - 5| ≤ tolerance * (1 / (2 : ℚ)) := by
  refine @C2_resolved_consistency (some (.int 10)) (some (.float 2)) (some (.float 5))
    ⟨10, 2, 5⟩ ?_
  rw [@resolve_all_given 10 (.float 2) (.float 5) (by norm_num) (by norm_num [PyNum.toRat])
    (by norm_num [PyNum.toRat])]
  norm_num [PyNum.toRat, pyAbs, tolerance]

/-- C3: every plan the resolver returns is feasible — if the minimum time
`(count − 1) × interval` required by a triple exceeds its duration, resolution
of that triple fails (any resolved plan satisfies the strict bound), the
sampling-configuration layer rejects the infeasible triple with its dedicated
infeasibility error, and in particular resolving count=100, frequency=10 Hz,
duration=5 s fails. -/
theorem C3_feasibility_of_resolution :
    (∀ (mc fz dz : Option PyNum) (r : ResolvedSampling),
        resolve_sampling_config mc fz dz = .ok r →
        ((r.measurements_count : ℚ) - 1) * (1 / r.sampling_frequency_hz) <
          r.total_duration_seconds) ∧
    (∀ (c : ℤ) (d f : ℚ), 0 < c → 0 < d → 0 < f →
        d < ((c : ℚ) - 1) * (1 / f) →
        validate_parameters c d f = .error .infeasible) ∧
    resolve_sampling_config (some (.int 100)) (some (.float 10)) (some (.float 5))
      = .error .conflict := by
  refine ⟨fun mc fz dz r h => resolve_ok_feasible h, ?_, ?_⟩
  · intro c d f hc hd hf hinf
    unfold validate_parameters
    rw [if_neg (by omega), if_neg (by linarith), if_neg (by linarith), if_pos hinf]
  · rw [@resolve_all_given 100 (.float 10) (.float 5) (by norm_num)
      (by norm_num [PyNum.toRat]) (by norm_num [PyNum.toRat])]
    norm_num [PyNum.toRat, pyAbs, tolerance]

/-- C3 (witness): a resolved plan is strictly feasible at a concrete input, and
the sampling-configuration layer rejects the infeasible triple (100, 5 s, 10 Hz)
with the infeasibility error. -/
theorem C3_witness :
    (((10 : ℤ) : ℚ) - 1) * (1 / (2 : ℚ)) < 5 ∧
    validate_parameters 100 5 10 = .error .infeasible := by
  constructor
  · have h : resolve_sampling_config (some (.int 10)) (some (.float 2)) none
        = .ok ⟨10, 2, 5⟩ := by
      rw [@resolve_missing_duration 10 (.float 2) (by norm_num) (by norm_num [PyNum.toRat])]
      norm_num [PyNum.toRat]
    exact C3_feasibility_of_resolution.1 (some (.int 10)) (some (.float 2)) none
      ⟨10, 2, 5⟩ h
  · exact C3_feasibility_of_resolution.2.1 100 5 10 (by norm_num) (by norm_num)
      (by norm_num) (by norm_num)

/-- C4 (counterexample): with count missing, frequency 1 Hz and duration 2.5 s,
none of the claim's three error conditions holds (two positive parameters are
present), yet the resolver errors (non-integral derived count). -/
theorem C4_counterexample :
    resolve_errors none (some (.float 1)) (some (.float (5/2))) = true ∧
    spec_error_condition none (some (.float 1)) (some (.float (5/2))) = false := by
  constructor
  · have h : resolve_sampling_config none (some (.float 1)) (some (.float (5/2)))
        = .error .nonIntegralCount := by
      rw [@resolve_missing_count (.float 1) (.float (5/2)) (by norm_num [PyNum.toRat])
        (by norm_num [PyNum.toRat])]
      have harg : (PyNum.float (5/2)).toRat * (PyNum.float 1).toRat = 5/2 := by
        norm_num [PyNum.toRat]
      rw [harg, pyRound_5_2]
      norm_num [pyAbs, tolerance]
    simp [resolve_errors, h]
  · norm_num [spec_error_condition, providedCount, PyNum.toRat]

/-- C4 (amended): the resolver raises a configuration error exactly when the
claim's three conditions hold — fewer than two present; a present parameter not
strictly positive (or count not an integer); all three present and
`duration × frequency` off from `count` by more than the tolerance — **or**
when exactly two are present with count missing and `duration × frequency` is
farther than the tolerance from the nearest integer. -/
theorem C4_error_condition :
    ∀ mc fz dz : Option PyNum,
      resolve_errors mc fz dz =
        (spec_error_condition mc fz dz || missing_count_nonintegral mc fz dz) := by
  intro mc fz dz
  rcases mc with _ | (n | q) <;> rcases fz with _ | f <;> rcases dz with _ | d <;>
    simp [resolve_errors, resolve_sampling_config, providedCount, count_ok, pos_ok,
      spec_error_condition, missing_count_nonintegral, PyNum.toRat] <;>
    split_ifs <;> simp_all

/-- C5: when exactly two of the three sampling parameters are present (and
valid), the resolver derives the third: a missing count becomes
`round(duration × frequency)` guarded by the tolerance check; a missing
frequency becomes `count / duration`; a missing duration becomes
`count / frequency`. -/
theorem C5_missing_parameter_derivation (f d : PyNum) (n : ℤ) :
    (0 < f.toRat → 0 < d.toRat →
      resolve_sampling_config none (some f) (some d) =
        if tolerance < pyAbs (d.toRat * f.toRat - (pyRound (d.toRat * f.toRat) : ℚ))
        then .error .nonIntegralCount
        else .ok ⟨pyRound (d.toRat * f.toRat), f.toRat, d.toRat⟩) ∧
    (0 < n → 0 < d.toRat →
      resolve_sampling_config (some (.int n)) none (some d) =
        .ok ⟨n, (n : ℚ) / d.toRat, d.toRat⟩) ∧
    (0 < n → 0 < f.toRat →
      resolve_sampling_config (some (.int n)) (some f) none =
        .ok ⟨n, f.toRat, (n : ℚ) / f.toRat⟩) :=
  ⟨fun hf hd => resolve_missing_count hf hd,
   fun hn hd => resolve_missing_frequency hn hd,
   fun hn hf => resolve_missing_duration hn hf⟩

/-- C5 (witness): the three derivations at count 10, frequency 2 Hz,
duration 5 s. -/
theorem C5_witness :
    resolve_sampling_config none (some (.float 2)) (some (.float 5)) = .ok ⟨10, 2, 5⟩ ∧
    resolve_sampling_config (some (.int 10)) none (some (.float 5)) = .ok ⟨10, 2, 5⟩ ∧
    resolve_sampling_config (some (.int 10)) (some (.float 2)) none = .ok ⟨10, 2, 5⟩ := by
  refine ⟨?_, ?_, ?_⟩
  · rw [(C5_missing_parameter_derivation (.float 2) (.float 5) 10).1
      (by norm_num [PyNum.toRat]) (by norm_num [PyNum.toRat])]
    have harg : (PyNum.float 5).toRat * (PyNum.float 2).toRat = 10 := by
      norm_num [PyNum.toRat]
    rw [harg, pyRound_10]
    norm_num [pyAbs, tolerance, PyNum.toRat]
  · rw [(C5_missing_parameter_derivation (.float 2) (.float 5) 10).2.1
      (by norm_num) (by norm_num [PyNum.toRat])]
    norm_num [PyNum.toRat]
  · rw [(C5_missing_parameter_derivation (.float 2) (.float 5) 10).2.2
      (by norm_num) (by norm_num [PyNum.toRat])]
    norm_num [PyNum.toRat]

/-- C9 (counterexample): resolving frequency 0.0005 Hz with duration 1 s
succeeds with derived count 0 (0.0005 is within the tolerance of 0), but
re-resolving the resolved output fails, because count 0 is rejected as
non-positive — resolution is not idempotent. -/
theorem C9_counterexample :
    resolve_sampling_config none (some (.float (1/2000))) (some (.float 1))
      = .ok ⟨0, 1/2000, 1⟩ ∧
    resolve_sampling_config (some (.int 0)) (some (.float (1/2000))) (some (.float 1))
      = .error .invalidCount := by
  constructor
  · rw [@resolve_missing_count (.float (1/2000)) (.float 1) (by norm_num [PyNum.toRat])
      (by norm_num [PyNum.toRat])]
    have harg : (PyNum.float 1).toRat * (PyNum.float (1/2000)).toRat = 1/2000 := by
      norm_num [PyNum.toRat]
    rw [harg, pyRound_1_2000]
    norm_num [pyAbs, tolerance, PyNum.toRat]
  · norm_num [resolve_sampling_config, providedCount, count_ok]

/-- C9 (amended): re-resolving a resolved output reproduces it exactly,
provided the resolved count is positive (a derived count of zero — possible
when `duration × frequency ≤ 1e-3` — is rejected on the second pass). -/
theorem C9_idempotence_on_positive_count {mc fz dz : Option PyNum}
    {r : ResolvedSampling} (h : resolve_sampling_config mc fz dz = .ok r)
    (hpos : 0 < r.measurements_count) :
    resolve_sampling_config (some (.int r.measurements_count))
      (some (.float r.sampling_frequency_hz)) (some (.float r.total_duration_seconds))
      = .ok r := by
  obtain ⟨hf, hd, _, hcons⟩ := resolve_ok_inv h
  rw [@resolve_all_given r.measurements_count (.float r.sampling_frequency_hz)
    (.float r.total_duration_seconds) hpos hf hd]
  have hcond : ¬ tolerance < pyAbs ((PyNum.float r.total_duration_seconds).toRat *
      (PyNum.float r.sampling_frequency_hz).toRat - (r.measurements_count : ℚ)) := by
    simp only [PyNum.toRat]
    rw [pyAbs_eq_abs]
    exact not_lt.mpr hcons
  rw [if_neg hcond]
  rfl

/-- C9 (witness): a resolved plan that re-resolves to itself. -/
theorem C9_witness :
    resolve_sampling_config (some (.int 10)) (some (.float 2)) (some (.float 5))
      = .ok ⟨10, 2, 5⟩ := by
  have h : resolve_sampling_config (some (.int 10)) none (some (.float 5))
      = .ok ⟨10, 2, 5⟩ := by
    rw [@resolve_missing_frequency 10 (.float 5) (by norm_num) (by norm_num [PyNum.toRat])]
    norm_num [PyNum.toRat]
  exact @C9_idempotence_on_positive_count _ _ _ ⟨10, 2, 5⟩ h (by norm_num)

/-- C10: any positive triple consistent within the tolerance is automatically
strictly feasible, and consequently no triple the resolver returns can ever be
rejected by the sampling configuration's feasibility check. -/
theorem C10_consistency_implies_feasibility :
    (∀ (c : ℤ) (f d : ℚ), 0 < c → 0 < f → 0 < d →
        |d * f - (c : ℚ)| ≤ tolerance → ((c : ℚ) - 1) * (1 / f) < d) ∧
    (∀ (mc fz dz : Option PyNum) (r : ResolvedSampling),
        resolve_sampling_config mc fz dz = .ok r →
        mkSamplingConfig r.measurements_count r.total_duration_seconds
            r.sampling_frequency_hz ≠ .error .infeasible) := by
  constructor
  · intro c f d _ hf _ hcons
    exact feasible_of_consistent hf hcons
  · intro mc fz dz r h hcontra
    obtain ⟨hf, hd, _, _⟩ := resolve_ok_inv h
    have hfeas := resolve_ok_feasible h
    unfold mkSamplingConfig validate_parameters at hcontra
    split_ifs at hcontra with h1 h2 h3 h4
    · simp at hcontra
    · exact absurd h2 (not_le.mpr hd)
    · exact absurd h3 (not_le.mpr hf)
    · exact absurd h4 (not_lt.mpr hfeas.le)

/-- C10 (witness): the consistent triple (10, 2 Hz, 5 s) is strictly feasible,
and the plan resolved from (count 10, frequency 2 Hz) passes the sampling
configuration's feasibility check. -/
theorem C10_witness :
    (((10 : ℤ) : ℚ) - 1) * (1 / (2 : ℚ)) < 5 ∧
    mkSamplingConfig 10 5 2 ≠ .error .infeasible := by
  constructor
  · exact C10_consistency_implies_feasibility.1 10 2 5 (by norm_num) (by norm_num)
      (by norm_num) (by norm_num [tolerance])
  · have h : resolve_sampling_config (some (.int 10)) (some (.float 2)) none
        = .ok ⟨10, 2, 5⟩ := by
      rw [@resolve_missing_duration 10 (.float 2) (by norm_num) (by norm_num [PyNum.toRat])]
      norm_num [PyNum.toRat]
    exact C10_consistency_implies_feasibility.2 (some (.int 10)) (some (.float 2)) none
      ⟨10, 2, 5⟩ h

/-! ## Helper lemmas about the scheduler -/

theorem get_measurement_none (conf : AmmeterConf) :
    get_measurement conf none = none := by
  cases hp : conf.port <;> simp [get_measurement, hp]

/-- Every item the worker enqueues carries the value acquired for its index. -/
theorem sampling_worker_values (conf : AmmeterConf) (env : Env) (sla : ℚ) :
    ∀ (n i : ℕ) (it : QItem), it ∈ (sampling_worker conf env sla n i).1 →
      it.value = get_measurement conf (env.acq it.index) := by
  intro n
  induction n with
  | zero =>
    intro i it h
    simp [sampling_worker] at h
  | succ n ih =>
    intro i it h
    simp only [sampling_worker] at h
    split_ifs at h
    · simp at h
    · simp at h
    · rcases List.mem_cons.mp h with h1 | h2
      · subst h1
        rfl
      · exact ih (i + 1) it h2

/-- Under a benign environment (no stop observed, worker clock within the SLA)
the worker produces exactly `n` items and does not set the SLA flag. -/
theorem sampling_worker_benign (conf : AmmeterConf) (env : Env) (sla : ℚ)
    (hstop : ∀ j, env.stopObs j = false) (hpe : ∀ j, env.pElapsed j ≤ sla) :
    ∀ (n i : ℕ), (sampling_worker conf env sla n i).1.length = n ∧
      (sampling_worker conf env sla n i).2 = false := by
  intro n
  induction n with
  | zero =>
    intro i
    simp [sampling_worker]
  | succ n ih =>
    intro i
    simp only [sampling_worker, hstop i, if_neg (not_lt.mpr (hpe i))]
    exact ⟨by simp [(ih (i + 1)).1], (ih (i + 1)).2⟩

/-- The consumer never collects more samples than it has loop iterations. -/
theorem consumer_loop_length_le (env : Env) (items : List QItem) (sla : ℚ)
    (tid aty : String) :
    ∀ (n i : ℕ) (st : CState),
      (consumer_loop env items sla tid aty n i st).measurements.length ≤
        st.measurements.length + n := by
  intro n
  induction n with
  | zero =>
    intro i st
    simp [consumer_loop]
  | succ n ih =>
    intro i st
    simp only [consumer_loop]
    by_cases hb : sla - env.cElapsed i ≤ 0
    · rw [if_pos hb]
      simp
    · rw [if_neg hb]
      cases hr : (if env.recvOk i then items[st.measurements.length]? else none) with
      | none =>
        simp only [hr]
        split_ifs <;> simp
      | some it =>
        simp only [hr]
        have h2 := ih (i + 1)
          { st with measurements := st.measurements ++
              [⟨it.timestamp, it.relative_time, it.value, i, tid, aty⟩] }
        simp at h2
        omega

/-- The consumer sets `_stop_event` and `_sla_exceeded` only together. -/
theorem consumer_loop_stop_eq_sla (env : Env) (items : List QItem) (sla : ℚ)
    (tid aty : String) :
    ∀ (n i : ℕ) (st : CState), st.stop_event = st.sla_exceeded →
      (consumer_loop env items sla tid aty n i st).stop_event =
        (consumer_loop env items sla tid aty n i st).sla_exceeded := by
  intro n
  induction n with
  | zero =>
    intro i st h
    simpa [consumer_loop] using h
  | succ n ih =>
    intro i st h
    simp only [consumer_loop]
    by_cases hb : sla - env.cElapsed i ≤ 0
    · rw [if_pos hb]
    · rw [if_neg hb]
      cases hr : (if env.recvOk i then items[st.measurements.length]? else none) with
      | none =>
        simp only [hr]
        split_ifs
        · rfl
        · exact h
      | some it =>
        simp only [hr]
        exact ih (i + 1) _ h

/-- Every collected sample's value is one of the enqueued items' values. -/
theorem consumer_loop_values (env : Env) (items : List QItem) (sla : ℚ)
    (tid aty : String) :
    ∀ (n i : ℕ) (st : CState) (s : Sample),
      s ∈ (consumer_loop env items sla tid aty n i st).measurements →
      s ∈ st.measurements ∨ ∃ it ∈ items, s.value = it.value := by
  intro n
  induction n with
  | zero =>
    intro i st s h
    simp only [consumer_loop] at h
    exact Or.inl h
  | succ n ih =>
    intro i st s h
    simp only [consumer_loop] at h
    by_cases hb : sla - env.cElapsed i ≤ 0
    · rw [if_pos hb] at h
      exact Or.inl h
    · rw [if_neg hb] at h
      cases hr : (if env.recvOk i then items[st.measurements.length]? else none) with
      | none =>
        simp only [hr] at h
        split_ifs at h <;> exact Or.inl h
      | some it =>
        simp only [hr] at h
        rcases ih (i + 1) _ s h with h1 | h2
        · simp only [List.mem_append, List.mem_singleton] at h1
          rcases h1 with h1 | h1
          · exact Or.inl h1
          · refine Or.inr ⟨it, ?_, by rw [h1]⟩
            have hin : items[st.measurements.length]? = some it := by
              by_cases hro : env.recvOk i
              · simpa [hro] using hr
              · simp [hro] at hr
            exact List.getElem?_mem hin
        · exact Or.inr h2

/-- Under a benign environment (every queue receive succeeds and the consumer's
clock stays inside the SLA) the consumer collects one sample per iteration and
leaves both events untouched. -/
theorem consumer_loop_benign (env : Env) (items : List QItem) (sla : ℚ)
    (tid aty : String) (hrecv : ∀ j, env.recvOk j = true)
    (hce : ∀ j, env.cElapsed j < sla) :
    ∀ (n i : ℕ) (st : CState), st.measurements.length + n ≤ items.length →
      (consumer_loop env items sla tid aty n i st).measurements.length =
          st.measurements.length + n ∧
      (consumer_loop env items sla tid aty n i st).stop_event = st.stop_event ∧
      (consumer_loop env items sla tid aty n i st).sla_exceeded = st.sla_exceeded := by
  intro n
  induction n with
  | zero =>
    intro i st _
    simp [consumer_loop]
  | succ n ih =>
    intro i st hlen
    have hb : ¬ sla - env.cElapsed i ≤ 0 := by
      have := hce i
      intro hcon
      linarith
    have hlt : st.measurements.length < items.length := by omega
    have hget : items[st.measurements.length]? = some items[st.measurements.length] :=
      List.getElem?_eq_getElem hlt
    simp only [consumer_loop]
    rw [if_neg hb]
    simp only [hrecv i, if_true, hget]
    have hih := ih (i + 1)
      { st with measurements := st.measurements ++
          [⟨items[st.measurements.length].timestamp,
            items[st.measurements.length].relative_time,
            items[st.measurements.length].value, i, tid, aty⟩] }
      (by simp; omega)
    simp at hih
    obtain ⟨h1, h2, h3⟩ := hih
    exact ⟨by omega, h2, h3⟩

/-- Every collected sample's value is the result of one of the worker's
acquisition calls. -/
theorem collect_values (cfg : Config) (sc : SamplingConfig) (env : Env)
    (aty tid : String) :
    ∀ s ∈ (collect_measurements cfg sc env aty tid).result.measurements,
      ∃ j, s.value = get_measurement (getAmmeterConf cfg aty) (env.acq j) := by
  intro s hs
  have hs' : s ∈ (consumer_loop env
      (sampling_worker (getAmmeterConf cfg aty) env sc.total_duration_seconds
        sc.measurements_count.toNat 0).1
      sc.total_duration_seconds tid aty sc.measurements_count.toNat 0
      ⟨[], false, false⟩).measurements := hs
  rcases consumer_loop_values env _ sc.total_duration_seconds tid aty
      sc.measurements_count.toNat 0 ⟨[], false, false⟩ s hs' with h1 | ⟨it, hmem, hval⟩
  · simp at h1
  · rw [hval, sampling_worker_values (getAmmeterConf cfg aty) env
      sc.total_duration_seconds sc.measurements_count.toNat 0 it hmem]
    exact ⟨it.index, rfl⟩

/-- A benign run — no stop observed, all clock readings inside the SLA, every
queue receive succeeds — collects the full count, classifies as `Success`, and
leaves both shared events unset. -/
theorem collect_benign (cfg : Config) (sc : SamplingConfig) (env : Env)
    (aty tid : String)
    (hstop : ∀ j, env.stopObs j = false)
    (hpe : ∀ j, env.pElapsed j ≤ sc.total_duration_seconds)
    (hrecv : ∀ j, env.recvOk j = true)
    (hce : ∀ j, env.cElapsed j < sc.total_duration_seconds)
    (hfin : env.finalElapsed ≤ sc.total_duration_seconds) :
    (collect_measurements cfg sc env aty tid).result.outcome = Outcome.Success ∧
    (collect_measurements cfg sc env aty tid).result.actual_count =
      (collect_measurements cfg sc env aty tid).result.expected_count ∧
    (collect_measurements cfg sc env aty tid).finalState.stop_event = false ∧
    (collect_measurements cfg sc env aty tid).slaEventFinal = false := by
  obtain ⟨hwlen, hwflag⟩ := sampling_worker_benign (getAmmeterConf cfg aty) env
    sc.total_duration_seconds hstop hpe sc.measurements_count.toNat 0
  obtain ⟨hlen, hstop2, hsla2⟩ := consumer_loop_benign env
    (sampling_worker (getAmmeterConf cfg aty) env sc.total_duration_seconds
      sc.measurements_count.toNat 0).1
    sc.total_duration_seconds tid aty hrecv hce
    sc.measurements_count.toNat 0 ⟨[], false, false⟩ (by simp [hwlen])
  simp only [collect_measurements]
  simp [hlen, hstop2, hsla2, hwflag, hfin]

/-- Classification of the final `success`/`reason` computation
(data_collector.py lines 205–212), given that the consumer cannot have
collected more than `total` samples. -/
theorem classification_core (len total : ℕ) (elapsed sla : ℚ) (flag : Bool)
    (hle : len ≤ total) :
    (((if (decide (total ≤ len) && decide (elapsed ≤ sla)) = true then Outcome.Success
       else if flag = true then Outcome.SlaExceeded else Outcome.Incomplete)
         = Outcome.Success) ↔ (len = total ∧ elapsed ≤ sla)) ∧
    (((if (decide (total ≤ len) && decide (elapsed ≤ sla)) = true then Outcome.Success
       else if flag = true then Outcome.SlaExceeded else Outcome.Incomplete)
         = Outcome.SlaExceeded) ↔ (¬ (len = total ∧ elapsed ≤ sla) ∧ flag = true)) ∧
    (((if (decide (total ≤ len) && decide (elapsed ≤ sla)) = true then Outcome.Success
       else if flag = true then Outcome.SlaExceeded else Outcome.Incomplete)
         = Outcome.Incomplete) ↔ (¬ (len = total ∧ elapsed ≤ sla) ∧ flag = false)) := by
  have hiff : ((decide (total ≤ len) && decide (elapsed ≤ sla)) = true) ↔
      (len = total ∧ elapsed ≤ sla) := by
    rw [Bool.and_eq_true, decide_eq_true_eq, decide_eq_true_eq]
    constructor
    · rintro ⟨h1, h2⟩
      exact ⟨le_antisymm hle h1, h2⟩
    · rintro ⟨h1, h2⟩
      exact ⟨h1.ge, h2⟩
  by_cases hs : (decide (total ≤ len) && decide (elapsed ≤ sla)) = true
  · rw [if_pos hs]
    rw [hiff] at hs
    refine ⟨?_, ?_, ?_⟩ <;> simp [hs.1, hs.2]
  · rw [if_neg hs]
    rw [hiff] at hs
    by_cases hf : flag = true
    · rw [if_pos hf]
      refine ⟨?_, ?_, ?_⟩ <;> simp [hs, hf]
    · rw [if_neg hf]
      have hf' : flag = false := by
        revert hf
        cases flag <;> simp
      refine ⟨?_, ?_, ?_⟩ <;> simp [hs, hf']

/-! ## Claims about the scheduler -/

/-- C1: every run of `collect_measurements` is classified `Success` iff the
collected count equals the plan's `measurements_count` and the final elapsed
time does not exceed `total_duration_seconds`; otherwise it is `SlaExceeded`
exactly when the shared SLA flag was raised, else `Incomplete`. -/
theorem C1_outcome_classification (cfg : Config) (sc : SamplingConfig) (env : Env)
    (aty tid : String) :
    (((collect_measurements cfg sc env aty tid).result.outcome = Outcome.Success) ↔
      ((collect_measurements cfg sc env aty tid).result.actual_count =
        (collect_measurements cfg sc env aty tid).result.expected_count ∧
       (collect_measurements cfg sc env aty tid).result.elapsed_time ≤
        sc.total_duration_seconds)) ∧
    (((collect_measurements cfg sc env aty tid).result.outcome = Outcome.SlaExceeded) ↔
      (¬ ((collect_measurements cfg sc env aty tid).result.actual_count =
        (collect_measurements cfg sc env aty tid).result.expected_count ∧
       (collect_measurements cfg sc env aty tid).result.elapsed_time ≤
        sc.total_duration_seconds) ∧
       (collect_measurements cfg sc env aty tid).slaEventFinal = true)) ∧
    (((collect_measurements cfg sc env aty tid).result.outcome = Outcome.Incomplete) ↔
      (¬ ((collect_measurements cfg sc env aty tid).result.actual_count =
        (collect_measurements cfg sc env aty tid).result.expected_count ∧
       (collect_measurements cfg sc env aty tid).result.elapsed_time ≤
        sc.total_duration_seconds) ∧
       (collect_measurements cfg sc env aty tid).slaEventFinal = false)) := by
  have hle := consumer_loop_length_le env
    (sampling_worker (getAmmeterConf cfg aty) env sc.total_duration_seconds
      sc.measurements_count.toNat 0).1
    sc.total_duration_seconds tid aty sc.measurements_count.toNat 0 ⟨[], false, false⟩
  exact classification_core _ _ _ _ _ (by simpa using hle)

/-- C7 (counterexample): a successful run in which the consumer never raises
the cancellation signal — after the receive loop ends on the success path,
`_stop_event` is still clear. -/
theorem C7_counterexample :
    (collect_measurements demoConfig scOne benignValEnv "greenlee" "t").result.outcome
      = Outcome.Success ∧
    (collect_measurements demoConfig scOne benignValEnv "greenlee" "t").finalState.stop_event
      = false := by
  have h := collect_benign demoConfig scOne benignValEnv "greenlee" "t"
    (fun j => rfl)
    (fun j => by norm_num [benignValEnv, benignNullEnv, scOne])
    (fun j => rfl)
    (fun j => by norm_num [benignValEnv, benignNullEnv, scOne])
    (by norm_num [benignValEnv, benignNullEnv, scOne])
  exact ⟨h.1, h.2.2.1⟩

/-- C7 (amended): after the receive loop ends the consumer has raised the
cancellation signal exactly when it detected SLA expiry; on the success and
plain-incomplete paths it does not (the producer instead stops naturally after
its last sample), and the wait for the producer is only the bounded 2-second
join. -/
theorem C7_cancellation_only_with_sla_flag (cfg : Config) (sc : SamplingConfig)
    (env : Env) (aty tid : String) :
    (collect_measurements cfg sc env aty tid).finalState.stop_event =
      (collect_measurements cfg sc env aty tid).finalState.sla_exceeded :=
  consumer_loop_stop_eq_sla env
    (sampling_worker (getAmmeterConf cfg aty) env sc.total_duration_seconds
      sc.measurements_count.toNat 0).1
    sc.total_duration_seconds tid aty sc.measurements_count.toNat 0
    ⟨[], false, false⟩ rfl

/-- C6: calling `collect_measurements` with an unknown measurement-source
identifier does not fail — it completes normally (`Success`) and every sample
value is null, because the source lookup falls back to an empty device config
with no port.  This contradicts the claim (and the repository's own
`test_invalid_ammeter_type`, which expects a `ValueError`). -/
theorem C6_unknown_source_run :
    (collect_measurements demoConfig scTwo benignValEnv "entes" "t").result.outcome
      = Outcome.Success ∧
    ∀ s ∈ (collect_measurements demoConfig scTwo benignValEnv "entes" "t").result.measurements,
      s.value = none := by
  constructor
  · exact (collect_benign demoConfig scTwo benignValEnv "entes" "t"
      (fun j => rfl)
      (fun j => by norm_num [benignValEnv, benignNullEnv, scTwo])
      (fun j => rfl)
      (fun j => by norm_num [benignValEnv, benignNullEnv, scTwo])
      (by norm_num [benignValEnv, benignNullEnv, scTwo])).1
  · intro s hs
    obtain ⟨j, hj⟩ := collect_values demoConfig scTwo benignValEnv "entes" "t" s hs
    rw [hj]
    have hconf : getAmmeterConf demoConfig "entes" = default_ammeter_conf := by
      simp [getAmmeterConf, demoConfig, List.lookup]
    rw [hconf]
    rfl

/-- C6 (amended): `collect_measurements` never raises for timing/SLA
conditions (it is a total function of the run's environment), and an unknown
measurement-source identifier does not fail either: the lookup falls back to an
empty device config, the port is absent, and every recorded sample value is
null. -/
theorem C6_unknown_source_null_values (cfg : Config) (sc : SamplingConfig)
    (env : Env) (aty tid : String) (h : (cfg.ammeters).lookup aty = none) :
    ∀ s ∈ (collect_measurements cfg sc env aty tid).result.measurements,
      s.value = none := by
  intro s hs
  obtain ⟨j, hj⟩ := collect_values cfg sc env aty tid s hs
  rw [hj]
  simp [getAmmeterConf, h, get_measurement, default_ammeter_conf]

/-- C6 (witness for the amended claim): a concrete run against an identifier
absent from the configuration records only null values. -/
theorem C6_witness :
    ∀ s ∈ (collect_measurements demoConfig scOne benignNullEnv "circutor" "t").result.measurements,
      s.value = none :=
  C6_unknown_source_null_values demoConfig scOne benignNullEnv "circutor" "t"
    (by simp [demoConfig, List.lookup])

/-- C8: against a measurement source that returns null on every acquisition,
a timing-benign run still records one sample per acquisition with a null
value, every such sample counts toward `actual_count`, and the outcome is
`Success` — a null value is never a collection failure. -/
theorem C8_null_source_collection (cfg : Config) (sc : SamplingConfig) (env : Env)
    (aty tid : String)
    (hacq : ∀ j, env.acq j = none)
    (hstop : ∀ j, env.stopObs j = false)
    (hpe : ∀ j, env.pElapsed j ≤ sc.total_duration_seconds)
    (hrecv : ∀ j, env.recvOk j = true)
    (hce : ∀ j, env.cElapsed j < sc.total_duration_seconds)
    (hfin : env.finalElapsed ≤ sc.total_duration_seconds) :
    (collect_measurements cfg sc env aty tid).result.outcome = Outcome.Success ∧
    (collect_measurements cfg sc env aty tid).result.actual_count =
      (collect_measurements cfg sc env aty tid).result.expected_count ∧
    ∀ s ∈ (collect_measurements cfg sc env aty tid).result.measurements,
      s.value = none := by
  obtain ⟨h1, h2, _, _⟩ := collect_benign cfg sc env aty tid hstop hpe hrecv hce hfin
  refine ⟨h1, h2, ?_⟩
  intro s hs
  obtain ⟨j, hj⟩ := collect_values cfg sc env aty tid s hs
  rw [hj, hacq j, get_measurement_none]

/-- C8 (witness): a concrete benign run with an always-null source collects
the full count, succeeds, and records only null values. -/
theorem C8_witness :
    (collect_measurements demoConfig scTwo benignNullEnv "greenlee" "t").result.outcome
      = Outcome.Success ∧
    (collect_measurements demoConfig scTwo benignNullEnv "greenlee" "t").result.actual_count
      = (collect_measurements demoConfig scTwo benignNullEnv "greenlee" "t").result.expected_count ∧
    ∀ s ∈ (collect_measurements demoConfig scTwo benignNullEnv "greenlee" "t").result.measurements,
      s.value = none :=
  C8_null_source_collection demoConfig scTwo benignNullEnv "greenlee" "t"
    (fun j => rfl)
    (fun j => rfl)
    (fun j => by norm_num [benignNullEnv, scTwo])
    (fun j => rfl)
    (fun j => by norm_num [benignNullEnv, scTwo])
    (by norm_num [benignNullEnv, scTwo])

end TestQA
